import Mathlib

/-!
Shallow embedding of `colossalai/pipeline/p2p.py`: the pipeline point-to-point
communication layer (payload classifier, metadata codec, serialization channel,
buffer exchange, orchestrator `_communicate`, and the two-participant fast path
`_p2p_comm`).

Transport primitives (`dist.isend` / `dist.irecv` / `dist.batch_isend_irecv` /
`torch.cuda.synchronize`) are external; they are modelled by an explicit event
trace: `batch_isend_irecv` becomes a `batchIssue` event carrying the issued
operations, each `req.wait()` becomes a `wait` event, and
`torch.cuda.synchronize()` becomes a `sync` event.  Values delivered by the
wire (the unpickled metadata object, the received shape entries) are supplied
by an explicit environment `Env`.
-/

set_option autoImplicit false

namespace P2P

/-- Element types of tensors (`torch.dtype`); only the constructors used by the
source file are modelled. -/
inductive Dtype where
  | float16
  | float32
  | int64
  | uint8
  deriving DecidableEq, Repr

/-- A torch device: host memory or an accelerator with an index. -/
inductive Device where
  | cpu
  | cuda (idx : Nat)
  deriving DecidableEq, Repr

/-- The index component of a device, `device.index` in torch: `none` for cpu. -/
def Device.index : Device → Option Nat
  | .cpu => none
  | .cuda i => some i

/-- A tensor, reduced to the attributes the p2p layer inspects: shape, dtype,
gradient-tracking flag and device.  Element data never influences the control
flow of the source file, so it is not modelled. -/
structure Tensor where
  shape : List Nat
  dtype : Dtype
  requires_grad : Bool
  device : Device
  deriving DecidableEq, Repr

/-- A Python runtime value as far as this file can observe it: a tensor, a list,
a dict (insertion-ordered key/value pairs), a string, an int, or `None`. -/
inductive PyValue where
  | tensor (t : Tensor)
  | list (vs : List PyValue)
  | dict (kvs : List (PyValue × PyValue))
  | str (s : String)
  | int (n : Int)
  | pyNone

mutual

/-- Structural equality on Python values (the `==` a Python dict uses on its
keys at the types that occur here). -/
def pyBeq : PyValue → PyValue → Bool
  | .tensor a, .tensor b => a = b
  | .list as, .list bs => pyBeqList as bs
  | .dict as, .dict bs => pyBeqKVs as bs
  | .str a, .str b => a = b
  | .int a, .int b => a = b
  | .pyNone, .pyNone => true
  | _, _ => false

/-- Elementwise `pyBeq` on lists. -/
def pyBeqList : List PyValue → List PyValue → Bool
  | [], [] => true
  | a :: as, b :: bs => pyBeq a b && pyBeqList as bs
  | _, _ => false

/-- Elementwise `pyBeq` on key/value pair lists. -/
def pyBeqKVs : List (PyValue × PyValue) → List (PyValue × PyValue) → Bool
  | [], [] => true
  | a :: as, b :: bs => (pyBeq a.1 b.1 && pyBeq a.2 b.2) && pyBeqKVs as bs
  | _, _ => false

end

/-- `TensorMetadata = namedtuple("TensorMetadata", ["key", "shape", "dtype", "requires_grad"])`. -/
structure TensorMetadata where
  key : Option PyValue
  shape : List Nat
  dtype : Dtype
  requires_grad : Bool

/-- `class P2PDataType(Enum)`. -/
inductive P2PDataType where
  | Serialization
  | Tensor
  | List
  | Dict
  deriving DecidableEq, Repr

/-- The `content` field of `P2PMetadata` is typed
`Union[List[TensorMetadata], TensorMetadata, Any]` in the source; this models
that untagged union. -/
inductive MetaContent where
  | single (m : TensorMetadata)
  | listMeta (ms : List TensorMetadata)
  | obj (v : PyValue)

/-- `@dataclass class P2PMetadata: data_type: P2PDataType; content: ...`. -/
structure P2PMetadata where
  data_type : P2PDataType
  content : MetaContent

/-- The combinations of `data_type` and `content` that the code actually
constructs (spec section 3's tagged union `PayloadMetadata`). -/
def WellFormedMeta (m : P2PMetadata) : Prop :=
  match m.data_type, m.content with
  | .Tensor, .single _ => True
  | .List, .listMeta _ => True
  | .Dict, .listMeta _ => True
  | .Serialization, .obj _ => True
  | _, _ => False

/-- A process group handle: the backend capability (`nccl`, i.e. direct
accelerator transfer) and whether the calling rank is outside the group
(`c10d._rank_not_in_group`). -/
structure Group where
  nccl : Bool
  rankAbsent : Bool
  deriving DecidableEq, Repr

/-- The ambient process state and the data the wire delivers during one call:
the default process group, `torch.cuda.current_device()`, the unpickled object
a serialization-channel receive produces, the byte lengths of serialized
objects, and the integer entries that fill the 3-element shape buffer of
`_p2p_comm`. -/
structure Env where
  defaultGroup : Group
  currentDevice : Nat
  wireMeta : P2PMetadata
  sendByteLen : Nat
  wireLen : Nat
  wireShape : Nat → Nat

/-- `check_for_nccl_backend(group)`: `group or c10d._get_default_group()`, then
ask the backend.  Wrapper unwrapping is invisible at this level. -/
def check_for_nccl_backend (group : Option Group) (env : Env) : Bool :=
  (group.getD env.defaultGroup).nccl

/-- `c10d._rank_not_in_group(group)`: `None` means the default group, in which
the calling rank always is. -/
def rank_not_in_group (group : Option Group) : Bool :=
  match group with
  | some g => g.rankAbsent
  | none => false

/-- `check_device(group)`: cpu unless the (resolved) backend is nccl, in which
case the current accelerator device. -/
def check_device (group : Option Group) (env : Env) : Device × Bool :=
  let is_nccl_backend := check_for_nccl_backend group env
  (if is_nccl_backend then Device.cuda env.currentDevice else Device.cpu, is_nccl_backend)

/-- True when the value is a tensor (`isinstance(v, torch.Tensor)`). -/
def PyValue.isTensor : PyValue → Bool
  | .tensor _ => true
  | _ => false

/-- True when the value is a string (`isinstance(k, str)`). -/
def PyValue.isStr : PyValue → Bool
  | .str _ => true
  | _ => false

/-- `_check_if_fast_send_available(object)`. -/
def check_if_fast_send_available : PyValue → Bool
  | .tensor _ => true
  | .list vs => vs.all PyValue.isTensor
  | .dict kvs => kvs.all fun kv => kv.1.isStr && kv.2.isTensor
  | _ => false

/-- `_check_if_fast_send_available` applied to an `Optional` payload
(`isinstance(None, ...)` is false on every branch). -/
def fastAvailableOpt : Option PyValue → Bool
  | some v => check_if_fast_send_available v
  | none => false

/-- Descriptor for one tensor of a fast-path payload: shape, dtype,
`requires_grad`, and the given key. -/
def descOf (key : Option PyValue) (t : Tensor) : TensorMetadata :=
  ⟨key, t.shape, t.dtype, t.requires_grad⟩

/-- The list comprehension `[TensorMetadata(None, v.shape, ...) for v in object]`:
one descriptor per element, in order; a non-tensor element is an attribute
error. -/
def descsOfList : List PyValue → Except String (List TensorMetadata)
  | [] => .ok []
  | .tensor t :: vs => (descsOfList vs).map fun ms => descOf none t :: ms
  | _ :: _ => .error "AttributeError: shape"

/-- The comprehension `[TensorMetadata(k, v.shape, ...) for k, v in object.items()]`:
one keyed descriptor per entry, in the dict's insertion order. -/
def descsOfDict : List (PyValue × PyValue) → Except String (List TensorMetadata)
  | [] => .ok []
  | (k, .tensor t) :: kvs => (descsOfDict kvs).map fun ms => descOf (some k) t :: ms
  | _ :: _ => .error "AttributeError: shape"

/-- `create_fast_send_metadata(object)`: the leading `assert` is modelled as an
error result; tensor / list / dict payloads produce `Tensor` / `List` / `Dict`
metadata whose descriptors carry shape, dtype and `requires_grad` (keys only
for dicts, in the dict's iteration order). -/
def create_fast_send_metadata (object : PyValue) : Except String P2PMetadata :=
  if !check_if_fast_send_available object then
    .error "assert _check_if_fast_send_available(object)"
  else
    match object with
    | .tensor t => .ok ⟨.Tensor, .single (descOf none t)⟩
    | .list vs => (descsOfList vs).map fun ms => ⟨.List, .listMeta ms⟩
    | .dict kvs => (descsOfDict kvs).map fun ms => ⟨.Dict, .listMeta ms⟩
    | _ => .error "RuntimeError: Cannot handle object"

/-- `torch.empty(metadata.shape, requires_grad=..., device=..., dtype=...)`. -/
def emptyLike (md : TensorMetadata) (current_device : Device) : Tensor :=
  ⟨md.shape, md.dtype, md.requires_grad, current_device⟩

/-- `create_recv_buffer(p2p_metadata, current_device)`: one buffer for `Tensor`
metadata, one buffer per descriptor (in order) for `List`/`Dict`, `ValueError`
for `Serialization`; attribute errors for content that does not match the tag. -/
def create_recv_buffer (p2p_metadata : P2PMetadata) (current_device : Device) :
    Except String (Tensor ⊕ List Tensor) :=
  if p2p_metadata.data_type = P2PDataType.Tensor then
    match p2p_metadata.content with
    | .single md => .ok (.inl (emptyLike md current_device))
    | _ => .error "AttributeError: shape"
  else if p2p_metadata.data_type = P2PDataType.List ∨ p2p_metadata.data_type = P2PDataType.Dict then
    match p2p_metadata.content with
    | .listMeta ms => .ok (.inr (ms.map fun md => emptyLike md current_device))
    | _ => .error "TypeError: not iterable metadata"
  else
    .error "ValueError: Unknown data_type"

/-- Direction of a point-to-point operation (`dist.isend` / `dist.irecv`). -/
inductive CommKind where
  | isend
  | irecv
  deriving DecidableEq, Repr

/-- One `dist.P2POp(comm_op, tensor, peer, group)` record. -/
structure P2POp where
  kind : CommKind
  tensor : Tensor
  peer : Nat
  group : Option Group
  deriving DecidableEq, Repr

/-- Observable transport events of one call: a `dist.batch_isend_irecv(ops)`
issue (carrying the ops), one `req.wait()` per returned handle, a
`torch.cuda.synchronize()`, and a marker recording the object argument handed
to `_send_recv_serialization_object`. -/
inductive Event where
  | batchIssue (ops : List P2POp)
  | wait
  | sync
  | serObject (object : Option P2PMetadata)

/-- The object argument of `filling_ops_queue`: a tensor, or an iterable whose
elements the function asserts to be tensors.  (`.contiguous()` does not change
any modelled attribute.) -/
def FillObj := Tensor ⊕ List PyValue

/-- `filling_ops_queue(obj, comm_op, comm_rank, ops_queue, group)`: append one
`P2POp` per tensor (the source recurses into the iterable; each element must be
a tensor or the `assert` fires). -/
def filling_ops_queue (obj : FillObj) (comm_op : CommKind) (comm_rank : Nat)
    (ops_queue : List P2POp) (group : Option Group) : Except String (List P2POp) :=
  match obj with
  | .inl t => .ok (ops_queue ++ [⟨comm_op, t, comm_rank, group⟩])
  | .inr vs =>
      vs.foldlM (fun acc v =>
        match v with
        | .tensor t => Except.ok (acc ++ [⟨comm_op, t, comm_rank, group⟩])
        | _ => Except.error "assert isinstance(tensor_to_comm, torch.Tensor)") ops_queue

/-- The event pattern of `if len(ops) > 0: reqs = dist.batch_isend_irecv(ops);
for req in reqs: req.wait()` — one issued batch, one wait per handle. -/
def runBatch (ops : List P2POp) : List Event :=
  if ops.length > 0 then Event.batchIssue ops :: List.replicate ops.length Event.wait else []

/-- View a receive buffer (tensor or list of tensors) as a `filling_ops_queue`
argument. -/
def bufToFill : Tensor ⊕ List Tensor → FillObj
  | .inl t => .inl t
  | .inr ts => .inr (ts.map PyValue.tensor)

/-- The buffer allocation and op-queue construction of `_batch_send_recv_tensor`
(lines 229-239): allocate receive buffers from non-`Serialization` metadata,
enqueue sends then receives (each guarded by its peer and its
`assert ..._group is not None`). -/
def batch_send_recv_core (send_tensor_list : Option FillObj)
    (recv_tensor_metadata : Option P2PMetadata) (send_dst recv_src : Option Nat)
    (send_group recv_group : Option Group) (current_device : Device) :
    Except String (Option (Tensor ⊕ List Tensor) × List P2POp) := do
  let buffer_recv : Option (Tensor ⊕ List Tensor) ←
    match recv_tensor_metadata with
    | some m =>
        if m.data_type ≠ P2PDataType.Serialization then
          (create_recv_buffer m current_device).map some
        else pure none
    | none => pure none
  let ops1 ←
    match send_dst, send_tensor_list with
    | some d, some stl =>
        match send_group with
        | none => Except.error "assert send_group is not None"
        | some sg => filling_ops_queue stl .isend d [] (some sg)
    | _, _ => pure []
  let ops ←
    match recv_src, buffer_recv with
    | some s, some br =>
        match recv_group with
        | none => Except.error "assert recv_group is not None"
        | some rg => filling_ops_queue (bufToFill br) .irecv s ops1 (some rg)
    | _, _ => pure ops1
  pure (buffer_recv, ops)

/-- `_batch_send_recv_tensor`: build the op queue, issue it as one batch, wait
on every handle, `torch.cuda.synchronize()`, and return the receive buffer(s). -/
def batch_send_recv_tensor (send_tensor_list : Option FillObj)
    (recv_tensor_metadata : Option P2PMetadata) (send_dst recv_src : Option Nat)
    (send_group recv_group : Option Group) (current_device : Device) :
    Except String (Option (Tensor ⊕ List Tensor)) × List Event :=
  match batch_send_recv_core send_tensor_list recv_tensor_metadata send_dst recv_src
      send_group recv_group current_device with
  | .error e => (.error e, [])
  | .ok (buffer_recv, ops) => (.ok buffer_recv, runBatch ops ++ [Event.sync])

/-- `_send_recv_serialization_object`: the two-round (length, then payload)
protocol.  Serialization itself (`c10d._object_to_tensor` / unpickling) is the
external codec; the object the receive side unpickles is supplied by
`env.wireMeta`, and the byte lengths by `env`.  The leading `serObject` event is
a model marker recording the object handed to the channel.  (The received
object here is always a `P2PMetadata`, never a bare tensor, so the
tensor-relocation step of lines 321-322 is the identity on it; that step is
modelled separately by `relocate_unpickled`.) -/
def send_recv_serialization_object (object : Option P2PMetadata)
    (send_dst recv_src : Option Nat) (send_group recv_group : Option Group)
    (current_device : Device) (is_nccl_backend : Bool) (env : Env) :
    Option P2PMetadata × List Event :=
  let recvDev := if is_nccl_backend then current_device else Device.cpu
  let ops1 : List P2POp :=
    (match object, send_dst with
     | some _, some d => [⟨.isend, ⟨[1], .int64, false, current_device⟩, d, send_group⟩]
     | _, _ => []) ++
    (match recv_src with
     | some s => [⟨.irecv, ⟨[1], .int64, false, recvDev⟩, s, recv_group⟩]
     | none => [])
  let t1 := runBatch ops1 ++ [Event.sync]
  let ops2 : List P2POp :=
    (match object, send_dst with
     | some _, some d => [⟨.isend, ⟨[env.sendByteLen], .uint8, false, current_device⟩, d, send_group⟩]
     | _, _ => []) ++
    (match recv_src with
     | some s => [⟨.irecv, ⟨[env.wireLen], .uint8, false, recvDev⟩, s, recv_group⟩]
     | none => [])
  let t2 := runBatch ops2 ++ [Event.sync]
  let result : Option P2PMetadata :=
    match recv_src with
    | some _ => some env.wireMeta
    | none => none
  (result, Event.serObject object :: (t1 ++ t2))

/-- Insert one key/value pair into an insertion-ordered Python dict: an existing
key is updated in place, a new key is appended. -/
def pyDictInsert (d : List (PyValue × PyValue)) (k v : PyValue) : List (PyValue × PyValue) :=
  if d.any (fun p => pyBeq p.1 k) then
    d.map (fun p => if pyBeq p.1 k then (p.1, v) else p)
  else d ++ [(k, v)]

/-- Build a Python dict from pairs in iteration order (the semantics of a dict
comprehension over those pairs). -/
def pyDictOfList (ps : List (PyValue × PyValue)) : List (PyValue × PyValue) :=
  ps.foldl (fun d p => pyDictInsert d p.1 p.2) []

/-- Reconstruction step of `_communicate` (lines 426-437): `Serialization`
metadata already carries the value; `Tensor`/`List` metadata return the receive
buffer as is; `Dict` metadata zips the descriptor keys, in descriptor order,
with the received buffers into a dict.  `assert recv_buffer is not None` and
shape mismatches are error results. -/
def reconstructRecv (metadata_recv : P2PMetadata)
    (recv_buffer : Option (Tensor ⊕ List Tensor)) : Except String (Option PyValue) :=
  if metadata_recv.data_type = P2PDataType.Serialization then
    match metadata_recv.content with
    | .obj v => .ok (some v)
    | _ => .error "Serialization content is not an object"
  else
    match recv_buffer with
    | none => .error "assert recv_buffer is not None"
    | some rb =>
      if metadata_recv.data_type = P2PDataType.Tensor ∨
          metadata_recv.data_type = P2PDataType.List then
        match rb with
        | .inl t => .ok (some (.tensor t))
        | .inr ts => .ok (some (.list (ts.map PyValue.tensor)))
      else if metadata_recv.data_type = P2PDataType.Dict then
        match metadata_recv.content, rb with
        | .listMeta ms, .inr bufs =>
            .ok (some (.dict (pyDictOfList
              ((ms.map fun m => m.key.getD PyValue.pyNone).zip (bufs.map PyValue.tensor)))))
        | _, _ => .error "TypeError: cannot zip metadata content with buffer"
      else
        .error "ValueError: Unknown data type"

/-- Lines 391-398 of `_communicate`: the metadata to send, when sending with
metadata: fast-path payloads on an all-nccl backend get buffer descriptors from
`create_fast_send_metadata`, everything else is wrapped whole as
`Serialization` (opaque) metadata. -/
def metadata_send_for (object : Option PyValue) (send_dst : Option Nat)
    (send_metadata : Bool) (is_nccl_backend : Bool) : Except String (Option P2PMetadata) :=
  if send_dst.isSome && send_metadata then
    let can_fast_send := fastAvailableOpt object && is_nccl_backend
    if !can_fast_send then
      .ok (some ⟨.Serialization, .obj (object.getD PyValue.pyNone)⟩)
    else
      (create_fast_send_metadata (object.getD PyValue.pyNone)).map some
  else .ok none

/-- Lines 413-419 of `_communicate`: the outbound tensors — a raw tensor, the
list itself, or a dict's values in insertion order. -/
def sendTensorListOf (object : Option PyValue) : Option FillObj :=
  match object with
  | some (.tensor t) => some (.inl t)
  | some (.list vs) => some (.inr vs)
  | some (.dict kvs) => some (.inr (kvs.map Prod.snd))
  | _ => none

/-- Result of one `_communicate` call: the returned value (or an uncaught
assertion/exception) paired with the transport event trace. -/
def CommResult := Except String (Option PyValue) × List Event

/-- The condition of the `assert metadata_recv is None or metadata_recv.data_type
!= P2PDataType.Serialization` check (true when the assert fires). -/
def metadataRecvIsSer (metadata_recv : Option P2PMetadata) : Bool :=
  match metadata_recv with
  | some m => m.data_type = P2PDataType.Serialization
  | none => false

/-- The data phase and reconstruction of `_communicate` (lines 413-437),
entered with the resolved receive metadata and the event trace `t1` of the
metadata phase: run the buffer exchange, then reconstruct the received value. -/
def communicateData (object : Option PyValue) (send_dst recv_src : Option Nat)
    (send_group recv_group : Option Group) (current_device : Device)
    (metadata_recv : Option P2PMetadata) (t1 : List Event) : CommResult :=
  match batch_send_recv_tensor (sendTensorListOf object) metadata_recv
      send_dst recv_src send_group recv_group current_device with
  | (.error e, t2) => (.error e, t1 ++ t2)
  | (.ok recv_buffer, t2) =>
    match metadata_recv with
    | none => (.ok none, t1 ++ t2)
    | some m => (reconstructRecv m recv_buffer, t1 ++ t2)

/-- The body of `_communicate`, with the recursive self-calls of the
split-into-two-sub-calls branch (lines 370-372) abstracted as `recurse`.
All `assert` statements are modelled as error results, in source order. -/
def communicateStep
    (recurse : Option PyValue → Option Nat → Option Nat → Option Group → Option Group →
      Bool → Option P2PMetadata → Env → CommResult)
    (object : Option PyValue) (send_dst recv_src : Option Nat)
    (send_group recv_group : Option Group) (send_metadata : Bool)
    (metadata_recv : Option P2PMetadata) (env : Env) : CommResult :=
  if send_dst.isNone && recv_src.isNone then
    (.error "send_dst and recv_src cannot be both None", [])
  else if send_dst.isSome && send_group.isNone then
    (.error "send_group must be specified when send_dst is not None", [])
  else if recv_src.isSome && recv_group.isNone then
    (.error "recv_group must be specified when recv_src is not None", [])
  else
    let send_metadata := send_metadata || (object.isSome && !fastAvailableOpt object)
    if metadataRecvIsSer metadata_recv then
      (.error "metadata_recv type must not be Serialization", [])
    else if send_dst.isSome && recv_src.isSome && (send_metadata || metadata_recv.isNone) then
      -- lines 370-372: split into a send-only call then a receive-only call
      match recurse object send_dst none send_group none send_metadata none env with
      | (.error e, t1) => (.error e, t1)
      | (.ok _, t1) =>
        let r2 := recurse none none recv_src none recv_group true metadata_recv env
        (r2.1, t1 ++ r2.2)
    else if !(!(send_dst.isSome && send_metadata) || recv_src.isNone) then
      (.error "assert: send() with metadata excludes recv()", [])
    else if !(!(recv_src.isSome && metadata_recv.isNone) || send_dst.isNone) then
      (.error "assert: recv() needing metadata excludes send()", [])
    else if !(!(send_dst.isSome && recv_src.isSome) ||
        (!send_metadata && metadata_recv.isSome)) then
      (.error "assert: combined call must need no extra metadata", [])
    else if rank_not_in_group send_group || rank_not_in_group recv_group then
      (.error "assert rank in group", [])
    else
      let sdev := check_device send_group env
      let rdev := check_device recv_group env
      if sdev.1 ≠ rdev.1 then
        (.error "assert current_send_device == current_recv_device", [])
      else
        let is_nccl_backend := sdev.2 && rdev.2
        let current_device := sdev.1
        if (send_dst.isSome && send_metadata) || (recv_src.isSome && metadata_recv.isNone) then
          match metadata_send_for object send_dst send_metadata is_nccl_backend with
          | .error e => (.error e, [])
          | .ok metadata_send =>
            let sr := send_recv_serialization_object metadata_send
              (if send_metadata then send_dst else none)
              (if metadata_recv.isNone then recv_src else none)
              (if send_metadata then send_group else none)
              (if metadata_recv.isNone then recv_group else none)
              current_device is_nccl_backend env
            if metadata_recv.isSome && sr.1.isSome then
              (.error "assert metadata_recv is None or _metadata_recv is None", sr.2)
            else
              communicateData object send_dst recv_src send_group recv_group current_device
                (if metadata_recv.isNone then sr.1 else metadata_recv) sr.2
        else
          communicateData object send_dst recv_src send_group recv_group current_device
            metadata_recv []

/-- Fallback for recursion deeper than the source can reach: the sub-calls of
the split branch have a single active peer and never split again, so this
function is never invoked with the depth budget below. -/
def communicateBottom : Option PyValue → Option Nat → Option Nat → Option Group →
    Option Group → Bool → Option P2PMetadata → Env → CommResult :=
  fun _ _ _ _ _ _ _ _ => (.error "recursion depth exceeded", [])

/-- `_communicate`: the recursion depth of the source is at most one (the split
branch calls itself only with a single active peer), so two unfoldings of the
body are the whole function. -/
def communicate : Option PyValue → Option Nat → Option Nat → Option Group →
    Option Group → Bool → Option P2PMetadata → Env → CommResult :=
  communicateStep (communicateStep communicateBottom)

/-- `_p2p_comm(tensor_send_next, recv_prev, peer, group, comm_dtype)`: the
specialized two-participant path.  Round one exchanges shape vectors (the
sender's `torch.tensor(t.size())`, the receiver's `torch.empty((3))`), round
two exchanges the data (receive buffer allocated at the received shape with
`comm_dtype`).  Note: neither round is followed by `torch.cuda.synchronize()`
in the source, so no `sync` event appears. -/
def p2p_comm (tensor_send_next : Option Tensor) (recv_prev : Bool) (peer : Nat)
    (group : Group) (comm_dtype : Dtype) (env : Env) : Option Tensor × List Event :=
  let send_next_shape : Option Tensor :=
    tensor_send_next.map fun t => ⟨[t.shape.length], .int64, false, .cuda env.currentDevice⟩
  let recv_prev_shape : Option Tensor :=
    if recv_prev then some ⟨[3], .int64, false, .cuda env.currentDevice⟩ else none
  let ops1 : List P2POp :=
    (match send_next_shape with
     | some st => [⟨.isend, st, peer, some group⟩]
     | none => []) ++
    (match recv_prev_shape with
     | some rt => [⟨.irecv, rt, peer, some group⟩]
     | none => [])
  let t1 := runBatch ops1
  -- `recv_prev_shape.tolist()`: the wire fills the 3 slots of the allocated
  -- shape buffer
  let tensor_recv_prev : Option Tensor :=
    if recv_prev then
      some ⟨[env.wireShape 0, env.wireShape 1, env.wireShape 2], comm_dtype, false,
        .cuda env.currentDevice⟩
    else none
  let ops2 : List P2POp :=
    (match tensor_send_next with
     | some t => [⟨.isend, t, peer, some group⟩]
     | none => []) ++
    (match tensor_recv_prev with
     | some rt => [⟨.irecv, rt, peer, some group⟩]
     | none => [])
  let t2 := runBatch ops2
  (tensor_recv_prev, t1 ++ t2)

/-- The byte string `b"cuda"`. -/
def cudaTok : List Nat := [99, 117, 100, 97]

/-- Whether `b"cuda"` occurs at offset `p` of the byte buffer. -/
def matchesCudaAt (buf : List Nat) (p : Nat) : Bool :=
  (buf.drop p).take 4 = cudaTok

/-- First occurrence of `b"cuda"` at an offset in `[i, i + fuel)`. -/
def findFrom (buf : List Nat) : Nat → Nat → Option Nat
  | 0, _ => none
  | fuel + 1, i => if matchesCudaAt buf i then some i else findFrom buf fuel (i + 1)

/-- First occurrence of `b"cuda"` at an offset `≥ i` (the regex engine's next
match when scanning from `i`). -/
def findCuda (buf : List Nat) (i : Nat) : Option Nat :=
  findFrom buf (buf.length - i) i

/-- All offsets at which `b"cuda"` occurs in the buffer, ascending. -/
def cudaPositions (buf : List Nat) : List Nat :=
  (List.range buf.length).filter fun p => matchesCudaAt buf p

/-- The `for cuda_str in re.finditer(b"cuda", buf_array)` loop: find the next
match in the *live, already patched* buffer starting at the previous match's
end, write `48 + device_index` at offset `pos + 5` (an out-of-range offset is
an `IndexError`, modelled as `none`), repeat.  The scan offset grows by at
least 4 per iteration, so `buf.length + 1` iterations always suffice; `fuel` is
only a structural-termination device. -/
def patchLoop (device_index : Nat) : Nat → List Nat → Nat → Option (List Nat)
  | 0, buf, _ => some buf
  | fuel + 1, buf, i =>
      match findCuda buf i with
      | none => some buf
      | some pos =>
          if pos + 5 < buf.length then
            patchLoop device_index fuel (buf.set (pos + 5) (48 + device_index)) (pos + 4)
          else none

/-- Lines 35-42 of `_cuda_safe_tensor_to_object`: if `b"cuda"` occurs in the
buffer, rewrite the byte 5 past each match found by the scan to
`48 + device_index`. -/
def patchCuda (buf : List Nat) (device_index : Nat) : Option (List Nat) :=
  if (findCuda buf 0).isSome then patchLoop device_index (buf.length + 1) buf 0
  else some buf

/-- `_cuda_safe_tensor_to_object(tensor, tensor_size)`: truncate the raw bytes
to `tensor_size`, patch the device digits, then unpickle.  Unpickling is the
external codec, passed in as `unpickle`. -/
def cuda_safe_tensor_to_object (bytes : List Nat) (tensor_size : Nat)
    (device_index : Nat) (unpickle : List Nat → Option PyValue) : Option PyValue :=
  (patchCuda (bytes.take tensor_size) device_index).bind unpickle

/-- Lines 321-322 of `_send_recv_serialization_object`: if the unpickled value
is a tensor whose device index differs from the current device, relocate it
there with `.cuda()`. -/
def relocate_unpickled (unpickle_object : PyValue) (current_device : Nat) : PyValue :=
  match unpickle_object with
  | .tensor t =>
      if t.device.index ≠ some current_device then
        .tensor ⟨t.shape, t.dtype, t.requires_grad, .cuda current_device⟩
      else .tensor t
  | v => v

@[simp] lemma isTensor_iff (v : PyValue) : v.isTensor = true ↔ ∃ t, v = .tensor t := by
  cases v <;> simp [PyValue.isTensor]

@[simp] lemma isStr_iff (v : PyValue) : v.isStr = true ↔ ∃ s, v = .str s := by
  cases v <;> simp [PyValue.isStr]

/-- The spec's description of the classifier: a single buffer, a list of
buffers, or a string-keyed mapping of buffers. -/
def FastPayload (v : PyValue) : Prop :=
  (∃ t, v = .tensor t) ∨
  (∃ vs, v = .list vs ∧ ∀ x ∈ vs, ∃ t, x = .tensor t) ∨
  (∃ kvs, v = .dict kvs ∧ ∀ kv ∈ kvs, (∃ s, (kv : PyValue × PyValue).1 = .str s) ∧ ∃ t, kv.2 = .tensor t)

/-- C8: the payload classifier `_check_if_fast_send_available` returns true if
and only if the payload is a single tensor, a list whose every element is a
tensor, or a mapping whose every key is a string and every value a tensor; it
returns false for every other value (it is a pure function, so it has no side
effects). -/
theorem claim8 (v : PyValue) : check_if_fast_send_available v = true ↔ FastPayload v := by
  cases v <;> simp [check_if_fast_send_available, FastPayload, List.all_eq_true]

/-- C6: `create_recv_buffer` fails if and only if given Serialization (Opaque)
metadata; for Tensor (single-buffer) metadata it returns exactly one buffer
matching the descriptor's shape, element type and gradient-tracking flag; for
List and Dict metadata it returns one buffer per descriptor, in descriptor
order, each matching its descriptor. -/
theorem claim6 (m : P2PMetadata) (dev : Device) (hwf : WellFormedMeta m) :
    ((∃ e, create_recv_buffer m dev = .error e) ↔ m.data_type = .Serialization) ∧
    (∀ md, m.content = .single md →
      create_recv_buffer m dev = .ok (.inl ⟨md.shape, md.dtype, md.requires_grad, dev⟩)) ∧
    (∀ ms, m.content = .listMeta ms →
      create_recv_buffer m dev =
        .ok (.inr (ms.map fun md => ⟨md.shape, md.dtype, md.requires_grad, dev⟩))) := by
  obtain ⟨dt, c⟩ := m
  cases dt <;> cases c <;> simp_all [WellFormedMeta, create_recv_buffer, emptyLike]

/-- C6 witness: claim6 applied to concrete single-buffer metadata. -/
theorem claim6_witness :
    create_recv_buffer ⟨.Tensor, .single ⟨none, [2, 3], .float32, true⟩⟩ (.cuda 0) =
      .ok (.inl ⟨[2, 3], .float32, true, .cuda 0⟩) :=
  (claim6 ⟨.Tensor, .single ⟨none, [2, 3], .float32, true⟩⟩ (.cuda 0) trivial).2.1 _ rfl

/-- C9: in `_p2p_comm`, the shape round sends the sender's shape vector (whose
length is the tensor's rank) and receives into a fixed 3-element int64 buffer
(so only rank-3 tensors are exchanged consistently); the data round allocates
and returns a receive buffer of exactly the received 3-entry shape with the
given communication dtype, and the call returns nothing when no receive was
requested. -/
theorem claim9 :
    (∀ (t : Tensor) (peer : Nat) (g : Group) (dt : Dtype) (env : Env),
      p2p_comm (some t) true peer g dt env =
        (some ⟨[env.wireShape 0, env.wireShape 1, env.wireShape 2], dt, false,
            .cuda env.currentDevice⟩,
         [.batchIssue
            [⟨.isend, ⟨[t.shape.length], .int64, false, .cuda env.currentDevice⟩, peer, some g⟩,
             ⟨.irecv, ⟨[3], .int64, false, .cuda env.currentDevice⟩, peer, some g⟩],
          .wait, .wait,
          .batchIssue
            [⟨.isend, t, peer, some g⟩,
             ⟨.irecv, ⟨[env.wireShape 0, env.wireShape 1, env.wireShape 2], dt, false,
                .cuda env.currentDevice⟩, peer, some g⟩],
          .wait, .wait])) ∧
    (∀ (tso : Option Tensor) (peer : Nat) (g : Group) (dt : Dtype) (env : Env),
      (p2p_comm tso false peer g dt env).1 = none) := by
  constructor
  · intro t peer g dt env
    rfl
  · intro tso peer g dt env
    rfl

/-- C10: the device-token patch of `_cuda_safe_tensor_to_object` is not total:
on a truncated buffer whose token starts fewer than 6 bytes before its end the
write at offset 5 past the match is out of range and the function raises
instead of returning a value (for every unpickler); and the written byte
`48 + device_index` is an ASCII digit (at most 57) if and only if the local
device index is at most 9. -/
theorem claim10 :
    (∀ unpickle : List Nat → Option PyValue,
      cuda_safe_tensor_to_object [120, 99, 117, 100, 97, 7, 7] 5 3 unpickle = none) ∧
    (∀ device_index : Nat,
      patchCuda [99, 117, 100, 97, 58, 48] device_index =
        some [99, 117, 100, 97, 58, 48 + device_index] ∧
      (48 ≤ 48 + device_index ∧ 48 + device_index ≤ 57 ↔ device_index ≤ 9)) := by
  constructor
  · intro unpickle
    have h : patchCuda [120, 99, 117, 100, 97] 3 = none := by decide
    simp [cuda_safe_tensor_to_object, h]
  · intro device_index
    refine ⟨?_, by omega⟩
    simp [patchCuda, patchLoop, findCuda, findFrom, matchesCudaAt, cudaTok]

lemma runBatch_pattern (ops : List P2POp) :
    runBatch ops =
      (if ops = [] then [] else Event.batchIssue ops :: List.replicate ops.length Event.wait) := by
  cases ops <;> simp [runBatch]

/-- Concrete tensor, group and environment used by counterexamples and
witnesses. -/
def t0 : Tensor := ⟨[1, 1, 1], .float16, false, .cuda 0⟩

def g0 : Group := ⟨true, false⟩

def env0 : Env := ⟨⟨true, false⟩, 0, ⟨.Tensor, .single ⟨none, [1], .float32, false⟩⟩, 4, 4, fun _ => 1⟩

/-- C4 counterexample: a concrete `_p2p_comm` call enqueues and batch-issues
operations but its whole event trace contains no device-wide synchronization
barrier, refuting the claim that every enqueuing path executes one before
returning. -/
theorem claim4_counterexample :
    (∃ ops, Event.batchIssue ops ∈ (p2p_comm (some t0) true 0 g0 .float16 env0).2) ∧
    Event.sync ∉ (p2p_comm (some t0) true 0 g0 .float16 env0).2 := by
  have h : (p2p_comm (some t0) true 0 g0 .float16 env0).2 =
      [.batchIssue [⟨.isend, ⟨[3], .int64, false, .cuda 0⟩, 0, some g0⟩,
                    ⟨.irecv, ⟨[3], .int64, false, .cuda 0⟩, 0, some g0⟩],
       .wait, .wait,
       .batchIssue [⟨.isend, t0, 0, some g0⟩,
                    ⟨.irecv, ⟨[1, 1, 1], .float16, false, .cuda 0⟩, 0, some g0⟩],
       .wait, .wait] := rfl
  rw [h]
  constructor
  · exact ⟨_, List.mem_cons_self _ _⟩
  · simp

/-- C4 amended: the buffer-exchange batch issues its enqueued operations as one
single batch, waits on every returned handle, and then executes a device-wide
synchronization barrier (or aborts before issuing anything); each of the two
serialization rounds does the same; the two rounds of the two-participant fast
path each issue one single batch and wait on every handle but execute no
device-wide synchronization barrier. -/
theorem claim4_amended :
    (∀ stl mrecv sd ss sg rg dev,
      (∃ e, batch_send_recv_tensor stl mrecv sd ss sg rg dev = (.error e, [])) ∨
      (∃ buf ops, batch_send_recv_tensor stl mrecv sd ss sg rg dev =
        (.ok buf,
          (if ops = ([] : List P2POp) then []
           else Event.batchIssue ops :: List.replicate ops.length Event.wait) ++ [Event.sync]))) ∧
    (∀ obj sd ss sg rg dev nccl env, ∃ ops1 ops2,
      (send_recv_serialization_object obj sd ss sg rg dev nccl env).2 =
        Event.serObject obj ::
          (((if ops1 = ([] : List P2POp) then []
             else Event.batchIssue ops1 :: List.replicate ops1.length Event.wait) ++ [Event.sync]) ++
           ((if ops2 = ([] : List P2POp) then []
             else Event.batchIssue ops2 :: List.replicate ops2.length Event.wait) ++ [Event.sync]))) ∧
    (∀ tso rp peer g dt env, ∃ ops1 ops2,
      (p2p_comm tso rp peer g dt env).2 =
        (if ops1 = ([] : List P2POp) then []
         else Event.batchIssue ops1 :: List.replicate ops1.length Event.wait) ++
        (if ops2 = ([] : List P2POp) then []
         else Event.batchIssue ops2 :: List.replicate ops2.length Event.wait) ∧
      Event.sync ∉ (p2p_comm tso rp peer g dt env).2) := by
  refine ⟨?_, ?_, ?_⟩
  · intro stl mrecv sd ss sg rg dev
    rcases h : batch_send_recv_core stl mrecv sd ss sg rg dev with e | ⟨buf, ops⟩
    · exact .inl ⟨e, by simp [batch_send_recv_tensor, h]⟩
    · exact .inr ⟨buf, ops, by simp [batch_send_recv_tensor, h, runBatch_pattern]⟩
  · intro obj sd ss sg rg dev nccl env
    refine ⟨(match obj, sd with
             | some _, some d => [⟨.isend, ⟨[1], .int64, false, dev⟩, d, sg⟩]
             | _, _ => []) ++
            (match ss with
             | some s => [⟨.irecv, ⟨[1], .int64, false,
                 if nccl then dev else Device.cpu⟩, s, rg⟩]
             | none => []),
            (match obj, sd with
             | some _, some d => [⟨.isend, ⟨[env.sendByteLen], .uint8, false, dev⟩, d, sg⟩]
             | _, _ => []) ++
            (match ss with
             | some s => [⟨.irecv, ⟨[env.wireLen], .uint8, false,
                 if nccl then dev else Device.cpu⟩, s, rg⟩]
             | none => []), ?_⟩
    rw [← runBatch_pattern, ← runBatch_pattern]
    rfl
  · intro tso rp peer g dt env
    rcases tso with _ | t <;> cases rp
    · exact ⟨[], [], by simp [p2p_comm, runBatch], by simp [p2p_comm, runBatch]⟩
    · exact ⟨[⟨.irecv, ⟨[3], .int64, false, .cuda env.currentDevice⟩, peer, some g⟩],
        [⟨.irecv, ⟨[env.wireShape 0, env.wireShape 1, env.wireShape 2], dt, false,
          .cuda env.currentDevice⟩, peer, some g⟩],
        by simp [p2p_comm, runBatch], by simp [p2p_comm, runBatch]⟩
    · exact ⟨[⟨.isend, ⟨[t.shape.length], .int64, false, .cuda env.currentDevice⟩, peer, some g⟩],
        [⟨.isend, t, peer, some g⟩],
        by simp [p2p_comm, runBatch], by simp [p2p_comm, runBatch]⟩
    · exact ⟨[⟨.isend, ⟨[t.shape.length], .int64, false, .cuda env.currentDevice⟩, peer, some g⟩,
         ⟨.irecv, ⟨[3], .int64, false, .cuda env.currentDevice⟩, peer, some g⟩],
        [⟨.isend, t, peer, some g⟩,
         ⟨.irecv, ⟨[env.wireShape 0, env.wireShape 1, env.wireShape 2], dt, false,
           .cuda env.currentDevice⟩, peer, some g⟩],
        by simp [p2p_comm, runBatch], by simp [p2p_comm, runBatch]⟩

/-- C5: if `_communicate` is called with a Serialization (Opaque) metadata_recv
hint, or with neither send_dst nor recv_src set, or with a peer set whose
corresponding group is absent, the call aborts immediately via a precondition
check with an empty transport trace, so no transport operation is issued and
no partial transmission occurs. -/
theorem claim5 (object : Option PyValue) (send_dst recv_src : Option Nat)
    (send_group recv_group : Option Group) (send_metadata : Bool)
    (metadata_recv : Option P2PMetadata) (env : Env)
    (h : (∃ m, metadata_recv = some m ∧ m.data_type = P2PDataType.Serialization) ∨
      (send_dst = none ∧ recv_src = none) ∨
      (send_dst.isSome ∧ send_group = none) ∨
      (recv_src.isSome ∧ recv_group = none)) :
    ∃ e, communicate object send_dst recv_src send_group recv_group send_metadata
      metadata_recv env = (.error e, []) := by
  rcases h with ⟨m, hm, hser⟩ | ⟨h1, h2⟩ | ⟨h1, h2⟩ | ⟨h1, h2⟩
  · subst hm
    by_cases c1 : send_dst.isNone && recv_src.isNone
    · exact ⟨"send_dst and recv_src cannot be both None",
        by simp [communicate, communicateStep, c1]⟩
    · by_cases c2 : send_dst.isSome && send_group.isNone
      · exact ⟨"send_group must be specified when send_dst is not None",
          by simp [communicate, communicateStep, c1, c2]⟩
      · by_cases c3 : recv_src.isSome && recv_group.isNone
        · exact ⟨"recv_group must be specified when recv_src is not None",
            by simp [communicate, communicateStep, c1, c2, c3]⟩
        · exact ⟨"metadata_recv type must not be Serialization",
            by simp [communicate, communicateStep, metadataRecvIsSer, c1, c2, c3, hser]⟩
  · subst h1; subst h2
    exact ⟨"send_dst and recv_src cannot be both None", by simp [communicate, communicateStep]⟩
  · subst h2
    obtain ⟨d, hd⟩ := Option.isSome_iff_exists.mp h1
    subst hd
    exact ⟨"send_group must be specified when send_dst is not None",
      by simp [communicate, communicateStep]⟩
  · subst h2
    obtain ⟨s, hs⟩ := Option.isSome_iff_exists.mp h1
    subst hs
    by_cases c2 : send_dst.isSome && send_group.isNone
    · exact ⟨"send_group must be specified when send_dst is not None",
        by simp [communicate, communicateStep, c2]⟩
    · exact ⟨"recv_group must be specified when recv_src is not None",
        by simp [communicate, communicateStep, c2]⟩

/-- In a call with at most one active peer the split branch is dead, so the body
does not depend on the recursion argument. -/
lemma communicateStep_recurse_irrelevant (r r' : Option PyValue → Option Nat → Option Nat →
      Option Group → Option Group → Bool → Option P2PMetadata → Env → CommResult)
    (object : Option PyValue) (send_dst recv_src : Option Nat)
    (send_group recv_group : Option Group) (send_metadata : Bool)
    (metadata_recv : Option P2PMetadata) (env : Env)
    (h : send_dst = none ∨ recv_src = none) :
    communicateStep r object send_dst recv_src send_group recv_group send_metadata
      metadata_recv env =
    communicateStep r' object send_dst recv_src send_group recv_group send_metadata
      metadata_recv env := by
  rcases h with h | h <;> subst h <;> simp [communicateStep]

/-- C1: when both send_dst and recv_src are set and (the effective
send_metadata flag is true or metadata_recv is absent), `_communicate` executes
as two sequential sub-calls - first a send-only call with the same payload,
send peer, send group and metadata flag, then a receive-only call with the same
receive peer, receive group and supplied hint - and (when the send sub-call
succeeds) the overall result equals the result of the receive-only sub-call,
with the traces concatenated. -/
theorem claim1 (object : Option PyValue) (d s : Nat) (sg rg : Group) (send_metadata : Bool)
    (metadata_recv : Option P2PMetadata) (env : Env)
    (hmr : ∀ m, metadata_recv = some m → m.data_type ≠ P2PDataType.Serialization)
    (hcond : (send_metadata || (object.isSome && !fastAvailableOpt object)) = true ∨
      metadata_recv = none)
    (hok : ∃ v, (communicate object (some d) none (some sg) none
        (send_metadata || (object.isSome && !fastAvailableOpt object)) none env).1 =
      Except.ok v) :
    communicate object (some d) (some s) (some sg) (some rg) send_metadata metadata_recv env =
      ((communicate none none (some s) none (some rg) true metadata_recv env).1,
       (communicate object (some d) none (some sg) none
          (send_metadata || (object.isSome && !fastAvailableOpt object)) none env).2 ++
       (communicate none none (some s) none (some rg) true metadata_recv env).2) := by
  obtain ⟨v, hv⟩ := hok
  have hsub1 : communicate object (some d) none (some sg) none
      (send_metadata || (object.isSome && !fastAvailableOpt object)) none env =
    communicateStep communicateBottom object (some d) none (some sg) none
      (send_metadata || (object.isSome && !fastAvailableOpt object)) none env :=
    communicateStep_recurse_irrelevant _ _ _ _ _ _ _ _ _ _ (.inr rfl)
  have hsub2 : communicate none none (some s) none (some rg) true metadata_recv env =
    communicateStep communicateBottom none none (some s) none (some rg) true
      metadata_recv env :=
    communicateStep_recurse_irrelevant _ _ _ _ _ _ _ _ _ _ (.inl rfl)
  have hser : metadataRecvIsSer metadata_recv = false := by
    rcases hx : metadata_recv with _ | m
    · rfl
    · simp [metadataRecvIsSer, hmr m hx]
  have hsplit : (send_metadata || object.isSome && !fastAvailableOpt object ||
      metadata_recv.isNone) = true := by
    rcases hcond with hc | hc
    · simp [hc]
    · simp [hc]
  show communicateStep (communicateStep communicateBottom) object (some d) (some s)
      (some sg) (some rg) send_metadata metadata_recv env = _
  rw [communicateStep.eq_def]
  simp only [Option.isNone_some, Option.isSome_some, Option.isNone_none, Bool.true_and,
    Bool.and_true, Bool.false_and, Bool.and_false, Bool.or_false, Bool.false_or, hser, hsplit,
    Bool.false_eq_true, if_false, if_true]
  rw [← hsub1, ← hsub2]
  rcases hp : communicate object (some d) none (some sg) none
      (send_metadata || (object.isSome && !fastAvailableOpt object)) none env with ⟨res1, t1⟩
  rw [hp] at hv
  simp only at hv
  subst hv
  rfl

/-- C1 witness: claim1 applied at a concrete send+receive call whose send-only
sub-call succeeds. -/
theorem claim1_witness :
    communicate none (some 0) (some 1) (some g0) (some g0) false none env0 =
      ((communicate none none (some 1) none (some g0) true none env0).1,
       (communicate none (some 0) none (some g0) none
          (false || ((none : Option PyValue).isSome && !fastAvailableOpt none)) none env0).2 ++
       (communicate none none (some 1) none (some g0) true none env0).2) :=
  claim1 none 0 1 g0 g0 false none env0 (fun m h => by simp at h) (.inr rfl) ⟨none, rfl⟩

lemma descsOfList_all_tensors (vs : List PyValue) (h : ∀ x ∈ vs, x.isTensor = true) :
    ∃ ms, descsOfList vs = Except.ok ms := by
  induction vs with
  | nil => exact ⟨[], rfl⟩
  | cons v vs ih =>
    obtain ⟨t, ht⟩ := isTensor_iff v |>.mp (h v (List.mem_cons_self v vs))
    obtain ⟨ms, hms⟩ := ih fun x hx => h x (List.mem_cons_of_mem v hx)
    subst ht
    exact ⟨descOf none t :: ms, by simp [descsOfList, hms, Except.map]⟩

lemma descsOfDict_all_tensors (kvs : List (PyValue × PyValue))
    (h : ∀ kv ∈ kvs, (kv : PyValue × PyValue).2.isTensor = true) :
    ∃ ms, descsOfDict kvs = Except.ok ms := by
  induction kvs with
  | nil => exact ⟨[], rfl⟩
  | cons kv kvs ih =>
    obtain ⟨t, ht⟩ := isTensor_iff kv.2 |>.mp (h kv (List.mem_cons_self kv kvs))
    obtain ⟨ms, hms⟩ := ih fun x hx => h x (List.mem_cons_of_mem kv hx)
    obtain ⟨k, v⟩ := kv
    simp only at ht
    subst ht
    exact ⟨descOf (some k) t :: ms, by simp [descsOfDict, hms, Except.map]⟩

/-- A fast-path payload always has constructible metadata. -/
lemma fast_meta_ok (object : PyValue) (h : check_if_fast_send_available object = true) :
    ∃ md, create_fast_send_metadata object = Except.ok md := by
  cases object with
  | tensor t => exact ⟨_, rfl⟩
  | list vs =>
    have h' := h
    simp only [check_if_fast_send_available, List.all_eq_true] at h'
    obtain ⟨ms, hms⟩ := descsOfList_all_tensors vs h'
    exact ⟨⟨.List, .listMeta ms⟩, by simp [create_fast_send_metadata, h, hms, Except.map]⟩
  | dict kvs =>
    have h' := h
    simp only [check_if_fast_send_available, List.all_eq_true, Bool.and_eq_true] at h'
    obtain ⟨ms, hms⟩ := descsOfDict_all_tensors kvs fun kv hkv => (h' kv hkv).2
    exact ⟨⟨.Dict, .listMeta ms⟩, by simp [create_fast_send_metadata, h, hms, Except.map]⟩
  | str s => simp [check_if_fast_send_available] at h
  | int n => simp [check_if_fast_send_available] at h
  | pyNone => simp [check_if_fast_send_available] at h

lemma communicateData_trace (object : Option PyValue) (send_dst recv_src : Option Nat)
    (send_group recv_group : Option Group) (current_device : Device)
    (metadata_recv : Option P2PMetadata) (t1 : List Event) :
    ∃ t2, (communicateData object send_dst recv_src send_group recv_group current_device
      metadata_recv t1).2 = t1 ++ t2 := by
  unfold communicateData
  rcases hbr : batch_send_recv_tensor (sendTensorListOf object) metadata_recv
      send_dst recv_src send_group recv_group current_device with ⟨res, t2⟩
  cases res with
  | error e => exact ⟨t2, rfl⟩
  | ok recv_buffer =>
    cases metadata_recv with
    | none => exact ⟨t2, rfl⟩
    | some m => exact ⟨t2, rfl⟩

/-- C2: in the metadata phase of a send with metadata required, the object
handed to the serialization channel is the buffer-shaped descriptor metadata
from `create_fast_send_metadata` when the payload is fast-path-classifiable and
the destination group supports direct accelerator transfer, and otherwise the
whole payload wrapped as Serialization (Opaque) metadata.  (The device-equality
assert, `hdev`, makes the code's two-sided nccl conjunction coincide with the
destination group's capability.) -/
theorem claim2 (object : PyValue) (d : Nat) (sg : Group) (send_metadata : Bool) (env : Env)
    (hrank : sg.rankAbsent = false)
    (hdev : sg.nccl = env.defaultGroup.nccl)
    (hsm : (send_metadata || !check_if_fast_send_available object) = true) :
    ((check_if_fast_send_available object && sg.nccl) = true →
      ∃ md, create_fast_send_metadata object = Except.ok md ∧
        (communicate (some object) (some d) none (some sg) none send_metadata none env).2.head? =
          some (.serObject (some md))) ∧
    ((check_if_fast_send_available object && sg.nccl) = false →
      (communicate (some object) (some d) none (some sg) none send_metadata none env).2.head? =
        some (.serObject (some ⟨.Serialization, .obj object⟩))) := by
  have hstep : communicate (some object) (some d) none (some sg) none send_metadata none env =
      communicateStep communicateBottom (some object) (some d) none (some sg) none
        send_metadata none env :=
    communicateStep_recurse_irrelevant _ _ _ _ _ _ _ _ _ _ (.inr rfl)
  rw [hstep, communicateStep.eq_def]
  simp only [Option.isNone_some, Option.isSome_some, Option.isNone_none, Option.isSome_none,
    Bool.true_and, Bool.and_true, Bool.false_and, Bool.and_false, Bool.or_false, Bool.false_or,
    Bool.not_false, Bool.not_true, Bool.true_or, Bool.or_true, Bool.and_self,
    Bool.false_eq_true, if_false, if_true, metadataRecvIsSer, rank_not_in_group,
    hrank, fastAvailableOpt, hsm, check_device, check_for_nccl_backend,
    Option.getD_some, Option.getD_none, hdev, ite_self, ne_eq, not_true_eq_false]
  constructor
  · intro hf
    obtain ⟨hfast, hnccl⟩ := (Bool.and_eq_true _ _).mp hf
    obtain ⟨md, hmd⟩ := fast_meta_ok object hfast
    refine ⟨md, hmd, ?_⟩
    have hms : metadata_send_for (some object) (some d) true env.defaultGroup.nccl =
        Except.ok (some md) := by
      simp [metadata_send_for, fastAvailableOpt, hfast, hnccl, hmd, Except.map]
    rw [hms]
    obtain ⟨t2, ht2⟩ := communicateData_trace (some object) (some d) none (some sg) none
      (if env.defaultGroup.nccl = true then Device.cuda env.currentDevice else Device.cpu)
      (send_recv_serialization_object (some md) (some d) none (some sg) none
        (if env.defaultGroup.nccl = true then Device.cuda env.currentDevice else Device.cpu)
        env.defaultGroup.nccl env).1
      (send_recv_serialization_object (some md) (some d) none (some sg) none
        (if env.defaultGroup.nccl = true then Device.cuda env.currentDevice else Device.cpu)
        env.defaultGroup.nccl env).2
    rw [ht2]
    rfl
  · intro hf
    have hms : metadata_send_for (some object) (some d) true env.defaultGroup.nccl =
        Except.ok (some ⟨.Serialization, .obj object⟩) := by
      simp [metadata_send_for, fastAvailableOpt, hf]
    rw [hms]
    obtain ⟨t2, ht2⟩ := communicateData_trace (some object) (some d) none (some sg) none
      (if env.defaultGroup.nccl = true then Device.cuda env.currentDevice else Device.cpu)
      (send_recv_serialization_object (some ⟨.Serialization, .obj object⟩) (some d) none
        (some sg) none
        (if env.defaultGroup.nccl = true then Device.cuda env.currentDevice else Device.cpu)
        env.defaultGroup.nccl env).1
      (send_recv_serialization_object (some ⟨.Serialization, .obj object⟩) (some d) none
        (some sg) none
        (if env.defaultGroup.nccl = true then Device.cuda env.currentDevice else Device.cpu)
        env.defaultGroup.nccl env).2
    rw [ht2]
    rfl

/-- C2 witness: claim2 applied to a concrete tensor payload on an nccl group. -/
theorem claim2_witness :
    ∃ md, create_fast_send_metadata (.tensor t0) = Except.ok md ∧
      (communicate (some (.tensor t0)) (some 0) none (some g0) none true none env0).2.head? =
        some (.serObject (some md)) :=
  (claim2 (.tensor t0) 0 g0 true env0 rfl rfl rfl).1 rfl

lemma pyDictInsert_fresh (d : List (PyValue × PyValue)) (k v : PyValue)
    (h : ∀ p ∈ d, pyBeq (p : PyValue × PyValue).1 k = false) :
    pyDictInsert d k v = d ++ [(k, v)] := by
  unfold pyDictInsert
  rw [if_neg]
  simp only [List.any_eq_true, not_exists, not_and]
  intro p hp
  simp [h p hp]

lemma pyDictOfList_go (ps acc : List (PyValue × PyValue))
    (hdisj : ∀ p ∈ acc, ∀ q ∈ ps, pyBeq (p : PyValue × PyValue).1 (q : PyValue × PyValue).1 = false)
    (hps : ps.Pairwise fun a b => pyBeq a.1 b.1 = false) :
    ps.foldl (fun d p => pyDictInsert d p.1 p.2) acc = acc ++ ps := by
  induction ps generalizing acc with
  | nil => simp
  | cons q ps ih =>
    rw [List.foldl_cons, pyDictInsert_fresh acc q.1 q.2
      (fun p hp => hdisj p hp q (List.mem_cons_self q ps))]
    rw [ih (acc ++ [(q.1, q.2)])]
    · simp
    · intro p hp r hr
      rcases List.mem_append.mp hp with hp | hp
      · exact hdisj p hp r (List.mem_cons_of_mem q hr)
      · simp only [List.mem_singleton] at hp
        subst hp
        exact (List.pairwise_cons.mp hps).1 r hr
    · exact (List.pairwise_cons.mp hps).2

/-- A dict built from pairwise-fresh keys keeps the pairs, in order. -/
lemma pyDictOfList_fresh (ps : List (PyValue × PyValue))
    (hps : ps.Pairwise fun a b => pyBeq a.1 b.1 = false) :
    pyDictOfList ps = ps := by
  unfold pyDictOfList
  rw [pyDictOfList_go ps [] (by simp) hps]
  simp

lemma descsOfDict_keys (kvs : List (PyValue × PyValue)) (ms : List TensorMetadata)
    (h : descsOfDict kvs = Except.ok ms) :
    ms.map (fun m => m.key) = kvs.map (fun kv => some kv.1) := by
  induction kvs generalizing ms with
  | nil =>
    simp only [descsOfDict] at h
    cases h
    simp
  | cons kv kvs ih =>
    obtain ⟨k, v⟩ := kv
    cases v with
    | tensor t =>
      simp only [descsOfDict] at h
      rcases hms : descsOfDict kvs with e | ms'
      · rw [hms] at h
        simp [Except.map] at h
      · rw [hms] at h
        simp only [Except.map] at h
        cases h
        simp [descOf, ih ms' hms]
    | list vs => simp [descsOfDict] at h
    | dict kvs' => simp [descsOfDict] at h
    | str s => simp [descsOfDict] at h
    | int n => simp [descsOfDict] at h
    | pyNone => simp [descsOfDict] at h

/-- C3: for received Dict metadata with descriptor keys k1..kn (fixed by the
sender's iteration order, last conjunct), the orchestrator's reconstruction
yields a mapping whose iteration gives exactly k1..kn in that order, each key
bound to the allocated receive buffer at the same position; for Tensor and List
metadata the returned buffer(s) themselves are the result. -/
theorem claim3 (dev : Device) :
    (∀ ms : List TensorMetadata,
      ((ms.map fun m => m.key.getD PyValue.pyNone).Pairwise fun a b => pyBeq a b = false) →
      create_recv_buffer ⟨.Dict, .listMeta ms⟩ dev =
        .ok (.inr (ms.map fun md => ⟨md.shape, md.dtype, md.requires_grad, dev⟩)) ∧
      reconstructRecv ⟨.Dict, .listMeta ms⟩
          (some (.inr (ms.map fun md => ⟨md.shape, md.dtype, md.requires_grad, dev⟩))) =
        .ok (some (.dict ((ms.map fun m => m.key.getD PyValue.pyNone).zip
          ((ms.map fun md => (⟨md.shape, md.dtype, md.requires_grad, dev⟩ : Tensor)).map
            PyValue.tensor))))) ∧
    (∀ (md : TensorMetadata) (rb : Tensor),
      reconstructRecv ⟨.Tensor, .single md⟩ (some (.inl rb)) = .ok (some (.tensor rb))) ∧
    (∀ (ms : List TensorMetadata) (bufs : List Tensor),
      reconstructRecv ⟨.List, .listMeta ms⟩ (some (.inr bufs)) =
        .ok (some (.list (bufs.map PyValue.tensor)))) ∧
    (∀ kvs, check_if_fast_send_available (.dict kvs) = true →
      ∃ ms, create_fast_send_metadata (.dict kvs) = Except.ok ⟨.Dict, .listMeta ms⟩ ∧
        ms.map (fun m => m.key) = kvs.map (fun kv => some kv.1)) := by
  refine ⟨?_, ?_, ?_, ?_⟩
  · intro ms hpw
    refine ⟨by simp [create_recv_buffer, emptyLike], ?_⟩
    simp only [reconstructRecv]
    have hzip : pyDictOfList ((ms.map fun m => m.key.getD PyValue.pyNone).zip
        ((ms.map fun md => (⟨md.shape, md.dtype, md.requires_grad, dev⟩ : Tensor)).map
          PyValue.tensor)) =
        (ms.map fun m => m.key.getD PyValue.pyNone).zip
        ((ms.map fun md => (⟨md.shape, md.dtype, md.requires_grad, dev⟩ : Tensor)).map
          PyValue.tensor) := by
      apply pyDictOfList_fresh
      have hfst : ((ms.map fun m => m.key.getD PyValue.pyNone).zip
          ((ms.map fun md => (⟨md.shape, md.dtype, md.requires_grad, dev⟩ : Tensor)).map
            PyValue.tensor)).map Prod.fst = ms.map fun m => m.key.getD PyValue.pyNone := by
        apply List.map_fst_zip
        simp
      rw [← hfst] at hpw
      exact (List.pairwise_map).mp hpw
    rw [hzip]
    rfl
  · intro md rb
    rfl
  · intro ms bufs
    rfl
  · intro kvs hf
    have h' := hf
    simp only [check_if_fast_send_available, List.all_eq_true, Bool.and_eq_true] at h'
    obtain ⟨ms, hms⟩ := descsOfDict_all_tensors kvs fun kv hkv => (h' kv hkv).2
    refine ⟨ms, ?_, descsOfDict_keys kvs ms hms⟩
    simp [create_fast_send_metadata, hf, hms, Except.map]

lemma pyBeq_str (a b : String) : pyBeq (.str a) (.str b) = decide (a = b) := by
  rw [pyBeq.eq_def]

/-- C3 witness: claim3 applied to concrete two-key Dict metadata. -/
theorem claim3_witness :
    reconstructRecv ⟨.Dict, .listMeta [⟨some (.str "a"), [1], .float32, false⟩,
        ⟨some (.str "b"), [2], .float32, false⟩]⟩
        (some (.inr [⟨[1], .float32, false, .cuda 0⟩, ⟨[2], .float32, false, .cuda 0⟩])) =
      .ok (some (.dict [(.str "a", .tensor ⟨[1], .float32, false, .cuda 0⟩),
        (.str "b", .tensor ⟨[2], .float32, false, .cuda 0⟩)])) := by
  have h := (claim3 (.cuda 0)).1 [⟨some (.str "a"), [1], .float32, false⟩,
    ⟨some (.str "b"), [2], .float32, false⟩] (by simp [pyBeq_str])
  simpa using h.2

lemma matchesCudaAt_true_iff (buf : List Nat) (p : Nat) :
    matchesCudaAt buf p = true ↔
      buf.get? p = some 99 ∧ buf.get? (p + 1) = some 117 ∧
      buf.get? (p + 2) = some 100 ∧ buf.get? (p + 3) = some 97 := by
  unfold matchesCudaAt cudaTok
  rw [decide_eq_true_iff]
  constructor
  · intro h
    have h0 : buf.get? (p + 0) = some 99 := by
      have := congrArg (fun l : List Nat => l.get? 0) h
      simpa [List.get?_take (show (0 : Nat) < 4 by omega), List.get?_drop] using this
    have h1 : buf.get? (p + 1) = some 117 := by
      have := congrArg (fun l : List Nat => l.get? 1) h
      simpa [List.get?_take (show (1 : Nat) < 4 by omega), List.get?_drop] using this
    have h2 : buf.get? (p + 2) = some 100 := by
      have := congrArg (fun l : List Nat => l.get? 2) h
      simpa [List.get?_take (show (2 : Nat) < 4 by omega), List.get?_drop] using this
    have h3 : buf.get? (p + 3) = some 97 := by
      have := congrArg (fun l : List Nat => l.get? 3) h
      simpa [List.get?_take (show (3 : Nat) < 4 by omega), List.get?_drop] using this
    exact ⟨by simpa using h0, h1, h2, h3⟩
  · intro ⟨h0, h1, h2, h3⟩
    apply List.ext_get?
    intro k
    match k with
    | 0 =>
      rw [List.get?_take (show (0 : Nat) < 4 by omega), List.get?_drop]
      simpa using h0
    | 1 =>
      rw [List.get?_take (show (1 : Nat) < 4 by omega), List.get?_drop]
      simpa using h1
    | 2 =>
      rw [List.get?_take (show (2 : Nat) < 4 by omega), List.get?_drop]
      simpa using h2
    | 3 =>
      rw [List.get?_take (show (3 : Nat) < 4 by omega), List.get?_drop]
      simpa using h3
    | (n + 4) =>
      have hl : ((buf.drop p).take 4).get? (n + 4) = none :=
        List.get?_eq_none.mpr (le_trans (List.length_take_le _ _) (by omega))
      have hr : ([99, 117, 100, 97] : List Nat).get? (n + 4) = none :=
        List.get?_eq_none.mpr (by simp)
      rw [hl, hr]

lemma matchesCudaAt_le_length (buf : List Nat) (p : Nat)
    (h : matchesCudaAt buf p = true) : p + 4 ≤ buf.length := by
  obtain ⟨_, _, _, h3⟩ := (matchesCudaAt_true_iff buf p).mp h
  by_contra hc
  rw [List.get?_eq_none.mpr (by omega)] at h3
  exact Option.noConfusion h3

lemma matchesCudaAt_set (buf : List Nat) (j x p : Nat) (h : j < p ∨ p + 3 < j) :
    matchesCudaAt (buf.set j x) p = matchesCudaAt buf p := by
  have e0 : (buf.set j x).get? p = buf.get? p := List.get?_set_ne _ _ (by omega)
  have e1 : (buf.set j x).get? (p + 1) = buf.get? (p + 1) := List.get?_set_ne _ _ (by omega)
  have e2 : (buf.set j x).get? (p + 2) = buf.get? (p + 2) := List.get?_set_ne _ _ (by omega)
  have e3 : (buf.set j x).get? (p + 3) = buf.get? (p + 3) := List.get?_set_ne _ _ (by omega)
  rcases hb : matchesCudaAt buf p with _ | _
  · rcases hb' : matchesCudaAt (buf.set j x) p with _ | _
    · rfl
    · exfalso
      obtain ⟨h0, h1, h2, h3⟩ := (matchesCudaAt_true_iff _ p).mp hb'
      rw [e0] at h0; rw [e1] at h1; rw [e2] at h2; rw [e3] at h3
      have := (matchesCudaAt_true_iff buf p).mpr ⟨h0, h1, h2, h3⟩
      rw [hb] at this
      exact Bool.noConfusion this
  · obtain ⟨h0, h1, h2, h3⟩ := (matchesCudaAt_true_iff buf p).mp hb
    exact (matchesCudaAt_true_iff _ p).mpr ⟨e0 ▸ h0, e1 ▸ h1, e2 ▸ h2, e3 ▸ h3⟩

lemma findFrom_eq_none (buf : List Nat) :
    ∀ (fuel i : Nat), (∀ q, i ≤ q → q < i + fuel → matchesCudaAt buf q = false) →
      findFrom buf fuel i = none := by
  intro fuel
  induction fuel with
  | zero => intro i _; rfl
  | succ fuel ih =>
    intro i h
    unfold findFrom
    rw [h i (le_refl i) (by omega)]
    exact ih (i + 1) fun q hq hq2 => h q (by omega) (by omega)

lemma findFrom_eq_some (buf : List Nat) :
    ∀ (fuel i p : Nat), i ≤ p → p < i + fuel → matchesCudaAt buf p = true →
      (∀ q, i ≤ q → q < p → matchesCudaAt buf q = false) →
      findFrom buf fuel i = some p := by
  intro fuel
  induction fuel with
  | zero => intro i p h1 h2; omega
  | succ fuel ih =>
    intro i p h1 h2 hm hmin
    unfold findFrom
    rcases Nat.eq_or_lt_of_le h1 with he | hlt
    · subst he
      rw [hm]
      rfl
    · rw [hmin i (le_refl i) hlt]
      exact ih (i + 1) p (by omega) (by omega) hm fun q hq hq2 => hmin q (by omega) hq2

lemma findCuda_eq_none (buf : List Nat) (i : Nat)
    (h : ∀ q, i ≤ q → matchesCudaAt buf q = false) : findCuda buf i = none :=
  findFrom_eq_none buf _ i fun q hq _ => h q hq

lemma findCuda_eq_some (buf : List Nat) (i p : Nat) (h1 : i ≤ p)
    (hm : matchesCudaAt buf p = true)
    (hmin : ∀ q, i ≤ q → q < p → matchesCudaAt buf q = false) :
    findCuda buf i = some p := by
  have hlen := matchesCudaAt_le_length buf p hm
  exact findFrom_eq_some buf _ i p h1 (by omega) hm hmin

lemma mem_cudaPositions (buf : List Nat) (p : Nat) :
    p ∈ cudaPositions buf ↔ matchesCudaAt buf p = true := by
  unfold cudaPositions
  rw [List.mem_filter, List.mem_range]
  constructor
  · exact fun h => h.2
  · intro h
    exact ⟨by have := matchesCudaAt_le_length buf p h; omega, h⟩

/-- Every element after the head of a 6-separated chain is at least 6 past the
head. -/
lemma chain_gap_tail {p : Nat} {ps : List Nat}
    (h : (p :: ps).Chain' fun a b => a + 6 ≤ b) : ∀ r ∈ ps, p + 6 ≤ r := by
  induction ps generalizing p with
  | nil => intro r hr; cases hr
  | cons q ps ih =>
    intro r hr
    have hpq : p + 6 ≤ q := (List.chain'_cons.mp h).1
    rcases List.mem_cons.mp hr with he | hr'
    · omega
    · have := ih (List.chain'_cons.mp h).2 r hr'
      omega

lemma patchLoop_spec (device_index : Nat) (hidx : device_index ≤ 9) :
    ∀ (ps : List Nat) (fuel : Nat) (buf : List Nat) (i : Nat),
      (∀ p ∈ ps, i ≤ p) →
      (∀ p ∈ ps, matchesCudaAt buf p = true) →
      (∀ q, i ≤ q → matchesCudaAt buf q = true → q ∈ ps) →
      (ps.Chain' fun a b => a + 6 ≤ b) →
      (∀ p ∈ ps, p + 5 < buf.length) →
      ps.length < fuel →
      ∃ out, patchLoop device_index fuel buf i = some out ∧
        out.length = buf.length ∧
        (∀ p ∈ ps, out.get? (p + 5) = some (48 + device_index)) ∧
        (∀ j, (∀ p ∈ ps, j ≠ p + 5) → out.get? j = buf.get? j) := by
  intro ps
  induction ps with
  | nil =>
    intro fuel buf i _ _ hcomp _ _ hfuel
    rcases fuel with _ | f
    · omega
    refine ⟨buf, ?_, rfl, by simp, fun j _ => rfl⟩
    unfold patchLoop
    rw [findCuda_eq_none buf i ?_]
    intro q hq
    rcases hq2 : matchesCudaAt buf q with _ | _
    · rfl
    · cases hcomp q hq hq2
  | cons p ps' ih =>
    intro fuel buf i hle hmatch hcomp hchain hrange hfuel
    rcases fuel with _ | f
    · omega
    have hp5 : p + 5 < buf.length := hrange p (List.mem_cons_self p ps')
    have htail : ∀ r ∈ ps', p + 6 ≤ r := chain_gap_tail hchain
    have hfind : findCuda buf i = some p := by
      apply findCuda_eq_some buf i p (hle p (List.mem_cons_self p ps'))
        (hmatch p (List.mem_cons_self p ps'))
      intro q hq hqp
      rcases hq2 : matchesCudaAt buf q with _ | _
      · rfl
      · exfalso
        rcases List.mem_cons.mp (hcomp q hq hq2) with he | hr
        · omega
        · have := htail q hr
          omega
    set buf' := buf.set (p + 5) (48 + device_index) with hbuf'
    have hlen' : buf'.length = buf.length := List.length_set _ _ _
    have hget5 : buf'.get? (p + 5) = some (48 + device_index) :=
      List.get?_set_eq_of_lt _ hp5
    obtain ⟨out, hout, holen, hopatched, hounch⟩ :=
      ih f buf' (p + 4)
        (fun r hr => by have := htail r hr; omega)
        (fun r hr => by
          rw [hbuf', matchesCudaAt_set buf (p + 5) (48 + device_index) r
            (Or.inl (by have := htail r hr; omega))]
          exact hmatch r (List.mem_cons_of_mem p hr))
        (fun q hq hq2 => by
          rcases Nat.lt_or_ge q (p + 6) with hq6 | hq6
          · exfalso
            obtain ⟨m0, m1, m2, m3⟩ := (matchesCudaAt_true_iff buf' q).mp hq2
            rcases (by omega : q = p + 4 ∨ q = p + 5) with he | he <;> subst he
            · rw [show p + 4 + 1 = p + 5 by omega, hget5] at m1
              have := Option.some.inj m1
              omega
            · rw [hget5] at m0
              have := Option.some.inj m0
              omega
          · have hq' : matchesCudaAt buf q = true := by
              rw [hbuf', matchesCudaAt_set buf (p + 5) (48 + device_index) q
                (Or.inl (by omega))] at hq2
              exact hq2
            rcases List.mem_cons.mp (hcomp q
                (by have := hle p (List.mem_cons_self p ps'); omega) hq') with he | hr
            · omega
            · exact hr)
        hchain.tail
        (fun r hr => by rw [hlen']; exact hrange r (List.mem_cons_of_mem p hr))
        (by simp only [List.length_cons] at hfuel; omega)
    refine ⟨out, ?_, by rw [holen, hlen'], ?_, ?_⟩
    · unfold patchLoop
      simp only [hfind]
      rw [if_pos hp5]
      exact hout
    · intro r hr
      rcases List.mem_cons.mp hr with he | hr'
      · subst he
        rw [hounch (r + 5) (fun r' hr' => by have := htail r' hr'; omega)]
        exact hget5
      · exact hopatched r hr'
    · intro j hj
      rw [hounch j (fun r hr => hj r (List.mem_cons_of_mem p hr))]
      exact List.get?_set_ne _ _ (by have := hj p (List.mem_cons_self p ps'); omega)

/-- C7 counterexample core: in `b"cudacuda:0"` the scan patches offset 5 (inside
the second token, destroying it) and never rewrites the second occurrence's
digit at offset 9. -/
theorem claim7_counterexample :
    cudaPositions [99, 117, 100, 97, 99, 117, 100, 97, 58, 48] = [0, 4] ∧
    patchCuda [99, 117, 100, 97, 99, 117, 100, 97, 58, 48] 3 =
      some [99, 117, 100, 97, 99, 51, 100, 97, 58, 48] ∧
    ([99, 117, 100, 97, 99, 51, 100, 97, 58, 48] : List Nat).get? (4 + 5) = some 48 ∧
    (48 : Nat) ≠ 48 + 3 := by
  refine ⟨by decide, by decide, by decide, by decide⟩

/-- C7 amended: the receive side scans the raw bytes left to right for the
device-marker token on the live, progressively patched buffer, writing
`48 + device_index` at offset 5 past each match found; when consecutive
occurrences are at least 6 bytes apart and the local index is at most 9, every
occurrence's embedded device-index digit is rewritten to the receiver's local
device index and all other bytes are unchanged; and a deserialized tensor
whose device does not match the local default is relocated there. -/
theorem claim7_amended (buf : List Nat) (device_index : Nat) (ps : List Nat)
    (hps : ps = cudaPositions buf)
    (hgap : ps.Chain' fun a b => a + 6 ≤ b)
    (hrange : ∀ p ∈ ps, p + 5 < buf.length) (hidx : device_index ≤ 9) :
    (∃ out, patchCuda buf device_index = some out ∧ out.length = buf.length ∧
      (∀ p ∈ ps, out.get? (p + 5) = some (48 + device_index)) ∧
      (∀ j, (∀ p ∈ ps, j ≠ p + 5) → out.get? j = buf.get? j)) ∧
    (∀ (t : Tensor) (cur : Nat), t.device.index ≠ some cur →
      relocate_unpickled (.tensor t) cur =
        .tensor ⟨t.shape, t.dtype, t.requires_grad, .cuda cur⟩) := by
  subst hps
  constructor
  · rcases hcp : cudaPositions buf with _ | ⟨p, ps'⟩
    · have hnone : findCuda buf 0 = none := by
        apply findCuda_eq_none
        intro q _
        rcases hq : matchesCudaAt buf q with _ | _
        · rfl
        · have := (mem_cudaPositions buf q).mpr hq
          rw [hcp] at this
          cases this
      refine ⟨buf, ?_, rfl, ?_, fun j _ => rfl⟩
      · unfold patchCuda
        rw [hnone]
        rfl
      · intro r hr
        cases hr
    · obtain ⟨out, hout, holen, hopatched, hounch⟩ :=
        patchLoop_spec device_index hidx (cudaPositions buf) (buf.length + 1) buf 0
          (fun r _ => Nat.zero_le r)
          (fun r hr => (mem_cudaPositions buf r).mp hr)
          (fun q _ hq => (mem_cudaPositions buf q).mpr hq)
          hgap hrange
          (by
            have : (cudaPositions buf).length ≤ (List.range buf.length).length :=
              List.length_filter_le _ _
            simpa using Nat.lt_succ_of_le (by simpa using this))
      have hfind : findCuda buf 0 = some p := by
        apply findCuda_eq_some buf 0 p (Nat.zero_le p)
        · exact (mem_cudaPositions buf p).mp (by rw [hcp]; exact List.mem_cons_self p ps')
        · intro q _ hqp
          rcases hq : matchesCudaAt buf q with _ | _
          · rfl
          · exfalso
            have hin := (mem_cudaPositions buf q).mpr hq
            rw [hcp] at hin
            rcases List.mem_cons.mp hin with he | hr
            · omega
            · have hch := hgap
              rw [hcp] at hch
              have := chain_gap_tail hch q hr
              omega
      rw [hcp] at hopatched hounch
      refine ⟨out, ?_, holen, hopatched, hounch⟩
      unfold patchCuda
      rw [hfind]
      exact hout
  · intro t cur hdev
    simp [relocate_unpickled, hdev]

/-- C7 witness: claim7_amended applied to the bytes of `b"cuda:0"` under local
device index 3: the digit byte becomes 48 + 3. -/
theorem claim7_witness :
    ∃ out, patchCuda [99, 117, 100, 97, 58, 48] 3 = some out ∧
      out.get? (0 + 5) = some (48 + 3) := by
  obtain ⟨⟨out, hout, _, hp, _⟩, _⟩ :=
    claim7_amended [99, 117, 100, 97, 58, 48] 3 [0] (by decide) (by simp) (by decide)
      (by decide)
  exact ⟨out, hout, hp 0 (List.mem_cons_self 0 [])⟩

/-- C5 witness: claim5 applied to a concrete call with a Serialization receive
hint. -/
theorem claim5_witness :
    ∃ e, communicate none (some 0) (some 1) (some g0) (some g0) false
      (some ⟨.Serialization, .obj .pyNone⟩) env0 = (.error e, []) :=
  claim5 none (some 0) (some 1) (some g0) (some g0) false
    (some ⟨.Serialization, .obj .pyNone⟩) env0 (.inl ⟨_, rfl, rfl⟩)

end P2P
